import Mathlib

/-!
Verification development for the client-side encryption utilities of the
chat application (file src/utils/encryption.js).

The repository code under verification is the orchestration layer: the
encryptMessage no-session recovery path with its pending-message registry
(a JS Map keyed by requestId), the encrypted-message socket handler set up
by initializeEncryption, and the file cipher wrappers encryptFile and
decryptFile.

External collaborators are modelled at their interface boundary, as the
specification scopes them: the Session Engine (signalProtocolManager, a
separate module not part of the shown core) and the platform builtins
(socket transport, JSON.parse and JSON.stringify, window.crypto.subtle)
appear as parameters supplying outcomes at the suspension points where the
code awaits them. Each socket listener body runs atomically here, matching
the single event loop of the concurrency model in the specification.
-/

namespace ChatEncryption

/-- A frame emitted on the socket transport by the code under study. -/
inductive Frame where
  | requestPreKeyBundle (userId : String) (requestId : Option String)
  | messageDecrypted (messageId : String)
  deriving Repr, DecidableEq

/-- The state of one JS Promise returned to a caller of encryptMessage. -/
inductive PromiseOutcome where
  | pending
  | resolved (value : String)
  | rejected (errMessage : String)
  deriving Repr, DecidableEq

/-- One value of the pendingMessages Map (line 93 of encryption.js): the
recipient, the queued content, and the resolve and reject capabilities of
the Promise given to the caller, modelled as a promise identifier. -/
structure PendingEntry where
  recipientId : String
  content : String
  promiseId : Nat
  deriving Repr, DecidableEq

/-- A one-shot socket listener registered with socket.once (line 104 of
encryption.js): its event name and the recipientId captured in its
closure. -/
structure Listener where
  eventName : String
  recipientId : String
  deriving Repr, DecidableEq

/-- The observable state of the module: the pendingMessages Map, the set
of registered one-shot listeners, the timers armed by setTimeout, the
promises handed out, the trace of emitted frames, the trace of calls to
the Session Engine operation processPreKeyBundle, and the next fresh
promise identifier. -/
structure ClientState where
  pendingMessages : List (String × PendingEntry)
  listeners : List Listener
  timers : List (String × Nat)
  promises : List (Nat × PromiseOutcome)
  emitted : List Frame
  processBundleCalls : List (String × String)
  nextPromiseId : Nat
  deriving Repr, DecidableEq

/-- The empty module state before any encryptMessage call. -/
def initState : ClientState :=
  { pendingMessages := []
    listeners := []
    timers := []
    promises := []
    emitted := []
    processBundleCalls := []
    nextPromiseId := 0 }

/-- The timeout the code passes to setTimeout (line 136 of encryption.js). -/
def bundleTimeoutMs : Nat := 10000

/-- Lookup in the pendingMessages Map. -/
def mapLookup (k : String) : List (String × PendingEntry) → Option PendingEntry
  | [] => none
  | (k2, v) :: rest => if k2 = k then some v else mapLookup k rest

/-- Map.delete: every binding for the key is removed. -/
def mapDelete (k : String) : List (String × PendingEntry) → List (String × PendingEntry)
  | [] => []
  | (k2, v) :: rest =>
    if k2 = k then mapDelete k rest else (k2, v) :: mapDelete k rest

/-- Map.set: the new binding replaces any previous binding for the key. -/
def mapSet (k : String) (v : PendingEntry) (m : List (String × PendingEntry)) :
    List (String × PendingEntry) :=
  (k, v) :: mapDelete k m

/-- Lookup among the handed-out promises. -/
def promiseLookup (pid : Nat) : List (Nat × PromiseOutcome) → Option PromiseOutcome
  | [] => none
  | (i, st) :: rest => if i = pid then some st else promiseLookup pid rest

/-- Settling a JS Promise: the first binding for the identifier changes
only if it is still pending, since a Promise settles at most once. -/
def settle (pid : Nat) (o : PromiseOutcome) :
    List (Nat × PromiseOutcome) → List (Nat × PromiseOutcome)
  | [] => []
  | (i, st) :: rest =>
    if i = pid then (i, if st = PromiseOutcome.pending then o else st) :: rest
    else (i, st) :: settle pid o rest

/-- The requestId built at line 90 of encryption.js from the recipient and
the value of Date.now at the time of the call. -/
def requestIdFor (recipientId : String) (now : Nat) : String :=
  recipientId ++ "-" ++ toString now

/-- The string-interpolated event name of the one-shot bundle listener
(line 104 of encryption.js). -/
def preKeyEventName (requestId : String) : String :=
  "pre-key-bundle-" ++ requestId

/-- The listeners registered for a given event name, in registration
order; these all fire when the event is emitted once. -/
def listenersFor (ev : String) : List Listener → List Listener
  | [] => []
  | l :: rest =>
    if l.eventName = ev then l :: listenersFor ev rest else listenersFor ev rest

/-- Removal of every one-shot listener for an event name, the effect of
socket.once consuming its registrations when the event fires. -/
def removeListenersFor (ev : String) : List Listener → List Listener
  | [] => []
  | l :: rest =>
    if l.eventName = ev then removeListenersFor ev rest
    else l :: removeListenersFor ev rest

/-- The no-session branch of encryptMessage (lines 89 to 137 of
encryption.js), entered when the Session Engine encrypt call failed with
the no-session signal: build requestId from Date.now, store the pending
entry with Map.set, emit one request-pre-key-bundle frame, register the
one-shot listener, and arm the timeout. -/
def enqueueStep (recipientId content : String) (now : Nat) (s : ClientState) :
    ClientState :=
  let requestId := requestIdFor recipientId now
  let pid := s.nextPromiseId
  { pendingMessages :=
      mapSet requestId ⟨recipientId, content, pid⟩ s.pendingMessages
    listeners := s.listeners ++ [⟨preKeyEventName requestId, recipientId⟩]
    timers := (requestId, now + bundleTimeoutMs) :: s.timers
    promises := (pid, PromiseOutcome.pending) :: s.promises
    emitted := s.emitted ++ [Frame.requestPreKeyBundle recipientId (some requestId)]
    processBundleCalls := s.processBundleCalls
    nextPromiseId := pid + 1 }

/-- The body of the one-shot bundle listener (lines 104 to 127 of
encryption.js). It first awaits processPreKeyBundle on its closure
recipientId and the received bundle; the outcome of that Session Engine
call, and of the later encrypt call, are supplied by the environment
(processResult is none on success, some message on rejection). On success
it reads the pending entry from the Map, encrypts the stringified queued
content, resolves the entry promise and deletes the entry; any rejection
is caught, rejecting the entry promise and deleting the entry; when the
Map holds no entry for the requestId, nothing further happens. -/
def listenerBody (stringify : String → String) (processResult : Option String)
    (encrypt : String → String → Except String String)
    (bundle requestId closureRecipientId : String) (s : ClientState) :
    ClientState :=
  match processResult, mapLookup requestId s.pendingMessages with
  | some errMessage, some e =>
    { s with
        processBundleCalls := s.processBundleCalls ++ [(closureRecipientId, bundle)]
        promises := settle e.promiseId (PromiseOutcome.rejected errMessage) s.promises
        pendingMessages := mapDelete requestId s.pendingMessages }
  | some _, none =>
    { s with
        processBundleCalls := s.processBundleCalls ++ [(closureRecipientId, bundle)] }
  | none, some e =>
    match encrypt closureRecipientId (stringify e.content) with
    | Except.ok ct =>
      { s with
          processBundleCalls := s.processBundleCalls ++ [(closureRecipientId, bundle)]
          promises := settle e.promiseId (PromiseOutcome.resolved ct) s.promises
          pendingMessages := mapDelete requestId s.pendingMessages }
    | Except.error errMessage =>
      { s with
          processBundleCalls := s.processBundleCalls ++ [(closureRecipientId, bundle)]
          promises := settle e.promiseId (PromiseOutcome.rejected errMessage) s.promises
          pendingMessages := mapDelete requestId s.pendingMessages }
  | none, none =>
    { s with
        processBundleCalls := s.processBundleCalls ++ [(closureRecipientId, bundle)] }

/-- Arrival of a pre-key-bundle response frame for a requestId: every
one-shot listener currently registered for the interpolated event name
fires exactly once, in registration order, and is deregistered. -/
def bundleResponseStep (stringify : String → String) (processResult : Option String)
    (encrypt : String → String → Except String String)
    (requestId bundle : String) (s : ClientState) : ClientState :=
  (listenersFor (preKeyEventName requestId) s.listeners).foldl
    (fun st l =>
      listenerBody stringify processResult encrypt bundle requestId l.recipientId st)
    { s with listeners := removeListenersFor (preKeyEventName requestId) s.listeners }

/-- The timeout callback armed at lines 130 to 136 of encryption.js: if
the Map still holds the entry, reject its promise with the timeout error
and delete the entry; otherwise do nothing. The listener registration is
not touched. -/
def timeoutStep (requestId : String) (s : ClientState) : ClientState :=
  match mapLookup requestId s.pendingMessages with
  | some e =>
    { s with
        promises :=
          settle e.promiseId
            (PromiseOutcome.rejected "Timeout requesting pre-key bundle") s.promises
        pendingMessages := mapDelete requestId s.pendingMessages }
  | none => s

/-- One event-loop step visible to this module: a call entering the
no-session branch, a bundle response frame, or a timer firing. -/
inductive Step where
  | enqueue (recipientId content : String) (now : Nat)
  | bundleResponse (stringify : String → String) (processResult : Option String)
      (encrypt : String → String → Except String String) (requestId bundle : String)
  | timerFire (requestId : String)

/-- Application of one step to the module state. -/
def applyStep : Step → ClientState → ClientState
  | Step.enqueue r c n, s => enqueueStep r c n s
  | Step.bundleResponse f pr e rid b, s => bundleResponseStep f pr e rid b s
  | Step.timerFire rid, s => timeoutStep rid s

/-- Running a sequence of steps. -/
def runSteps (l : List Step) (s : ClientState) : ClientState :=
  l.foldl (fun st stp => applyStep stp st) s

/-- An incoming encrypted-message envelope, the payload of the
encrypted-message socket event destructured at line 28 of encryption.js. -/
structure Envelope where
  senderId : String
  channelId : String
  encryptedMessage : String
  messageId : String
  deriving Repr, DecidableEq

/-- An observable action of the encrypted-message handler: dispatching the
message-decrypted CustomEvent on window, or emitting a socket frame. -/
inductive HandlerOut where
  | windowDispatch (messageId senderId channelId parsedContent : String)
  | emit (f : Frame)
  deriving Repr, DecidableEq

/-- The encrypted-message socket handler registered by initializeEncryption
(lines 27 to 51 of encryption.js). The Session Engine decrypt outcome and
the platform JSON.parse are parameters; JSON.parse returning none models
the builtin throwing on invalid JSON. The try block awaits decrypt, builds
the CustomEvent (evaluating JSON.parse in its detail), dispatches it, then
emits the message-decrypted acknowledgement; any throw lands in the catch,
which emits one request-pre-key-bundle frame for the sender with no
requestId field. -/
def handleEncryptedMessage (decrypt : String → String → Except String String)
    (parseJson : String → Option String) (env : Envelope) : List HandlerOut :=
  match decrypt env.senderId env.encryptedMessage with
  | Except.error _ => [HandlerOut.emit (Frame.requestPreKeyBundle env.senderId none)]
  | Except.ok decryptedContent =>
    match parseJson decryptedContent with
    | none => [HandlerOut.emit (Frame.requestPreKeyBundle env.senderId none)]
    | some content =>
      [HandlerOut.windowDispatch env.messageId env.senderId env.channelId content,
       HandlerOut.emit (Frame.messageDecrypted env.messageId)]

/-- Modelled from the spec: the Session Engine error taxonomy. The engine
module signalProtocol.js is not part of the shown core; the specification
names a structured kind for each failure, NoSessionError being the
specific no-session signal, distinct from other encryption failures. -/
inductive EngineErrorKind where
  | noSession
  | encryptionError
  | otherError
  deriving Repr, DecidableEq

/-- An error raised by a Session Engine operation: its structured kind
(from the specification taxonomy) and its JS message string, which is all
the code under study inspects. -/
structure EngineError where
  kind : EngineErrorKind
  message : String
  deriving Repr, DecidableEq

/-- Whether the needle matches at the head of the haystack. -/
def matchesAt : List Char → List Char → Bool
  | [], _ => true
  | _ :: _, [] => false
  | a :: as, b :: bs => a == b && matchesAt as bs

/-- Whether the needle occurs contiguously anywhere in the haystack, the
behavior of the JS String includes method. -/
def occursIn (needle : List Char) : List Char → Bool
  | [] => matchesAt needle []
  | c :: rest => matchesAt needle (c :: rest) || occursIn needle rest

/-- The test the catch block of encryptMessage applies at line 88 of
encryption.js: error.message.includes with the literal search string. -/
def containsNoSession (msg : String) : Bool :=
  occursIn "No session".data msg.data

/-- Where the catch block of encryptMessage sends a Session Engine
encrypt failure: into the pending bundle-exchange branch when the message
passes the substring test, otherwise rethrown unchanged to the caller. -/
inductive EncryptDispatch where
  | enqueuedPending
  | propagated (e : EngineError)
  deriving Repr, DecidableEq

/-- The failure classification performed by encryptMessage (lines 86 to
141 of encryption.js). -/
def classifyEncryptError (e : EngineError) : EncryptDispatch :=
  if containsNoSession e.message then EncryptDispatch.enqueuedPending
  else EncryptDispatch.propagated e

/-- Modelled from the spec: the generic authenticated-encryption primitive
behind window.crypto.subtle, an external platform capability. The
operations take the algorithm name the code selects, the raw key bytes,
the IV bytes and the data bytes; decrypt returns none when authentication
fails. -/
structure AEAD where
  encrypt : String → List Nat → List Nat → List Nat → List Nat
  decrypt : String → List Nat → List Nat → List Nat → Option (List Nat)

/-- A file handed to encryptFile: its bytes as read by FileReader, and
the name and type metadata; the JS File size equals the byte length. -/
structure FileData where
  bytes : List Nat
  name : String
  type : String
  deriving Repr, DecidableEq

/-- The object returned by encryptFile (lines 179 to 187 of
encryption.js). -/
structure EncryptedFilePackage where
  encryptedFile : List Nat
  fileName : String
  fileType : String
  fileSize : Nat
  key : List Nat
  iv : List Nat
  channelId : String
  deriving Repr, DecidableEq

/-- The algorithm name the file cipher passes to every subtle crypto call
(generateKey, encrypt, importKey, decrypt). -/
def fileCipherAlgorithm : String := "AES-GCM"

/-- encryptFile (lines 150 to 188 of encryption.js): generateKey with
length 256 followed by exportKey raw yields 32 fresh random key bytes, and
getRandomValues on a Uint8Array of length 12 yields 12 fresh random IV
bytes; both draws are modelled as consecutive reads from the entropy
stream supplied by the platform RNG. The file bytes are encrypted with
AES-GCM under that key and IV, and the package carries the ciphertext,
the metadata, the raw key, the IV and the channelId. -/
def encryptFile (aead : AEAD) (file : FileData) (channelId : String)
    (entropy : List Nat) : EncryptedFilePackage :=
  { encryptedFile :=
      aead.encrypt fileCipherAlgorithm (entropy.take 32)
        ((entropy.drop 32).take 12) file.bytes
    fileName := file.name
    fileType := file.type
    fileSize := file.bytes.length
    key := entropy.take 32
    iv := (entropy.drop 32).take 12
    channelId := channelId }

/-- decryptFile (lines 196 to 218 of encryption.js): imports the supplied
raw key and decrypts the package ciphertext with AES-GCM under the IV
stored in the package; a subtle decrypt rejection (the authentication
failure the specification calls FileDecryptError) propagates to the
caller. -/
def decryptFile (aead : AEAD) (fileData : EncryptedFilePackage)
    (decryptedKey : List Nat) : Except String (List Nat) :=
  match aead.decrypt fileCipherAlgorithm decryptedKey fileData.iv
      fileData.encryptedFile with
  | some bytes => Except.ok bytes
  | none => Except.error "FileDecryptError"

/-- The count of positions at which two byte lists disagree. -/
def diffCount (xs ys : List Nat) : Nat :=
  (List.zip xs ys).countP (fun p => p.1 != p.2)

/-- ys is xs with exactly one byte changed (same length, one differing
position). -/
def oneByteFlipOf (xs ys : List Nat) : Bool :=
  xs.length == ys.length && diffCount xs ys == 1

/-- A concrete authenticated cipher used to witness the abstract AEAD
contract: the ciphertext is the data followed by one tag byte mixing key,
IV and data, and decrypt rejects any ciphertext whose tag does not match. -/
def tagOf (key iv data : List Nat) : Nat :=
  (key.sum + 2 * iv.sum + 3 * data.sum + data.length) % 256

/-- Encryption direction of the witness cipher. -/
def modelAeadEncrypt (key iv data : List Nat) : List Nat :=
  data ++ [tagOf key iv data]

/-- Decryption direction of the witness cipher: authenticate, then return
the data prefix. -/
def modelAeadDecrypt (key iv ct : List Nat) : Option (List Nat) :=
  if ct = [] then none
  else if ct.getLastD 0 = tagOf key iv ct.dropLast then some ct.dropLast
  else none

/-- The witness instance of the AEAD interface; the algorithm name is
accepted and ignored, as for any fixed cipher suite. -/
def modelAead : AEAD :=
  ⟨fun _ => modelAeadEncrypt, fun _ => modelAeadDecrypt⟩

theorem mapLookup_mapSet_self (k : String) (v : PendingEntry)
    (m : List (String × PendingEntry)) : mapLookup k (mapSet k v m) = some v := by
  simp [mapSet, mapLookup]

theorem mapLookup_mapDelete_self (k : String) (m : List (String × PendingEntry)) :
    mapLookup k (mapDelete k m) = none := by
  induction m with
  | nil => simp [mapDelete, mapLookup]
  | cons hd tl ih =>
    obtain ⟨k2, v⟩ := hd
    by_cases hk : k2 = k
    · simp [mapDelete, hk, ih]
    · simp [mapDelete, mapLookup, hk, ih]

theorem mapLookup_mem {k : String} {m : List (String × PendingEntry)}
    {v : PendingEntry} (h : mapLookup k m = some v) : (k, v) ∈ m := by
  induction m with
  | nil => simp [mapLookup] at h
  | cons hd tl ih =>
    obtain ⟨k2, v2⟩ := hd
    by_cases hk : k2 = k
    · subst hk
      simp [mapLookup] at h
      subst h
      exact List.mem_cons_self _ _
    · simp [mapLookup, hk] at h
      exact List.mem_cons_of_mem _ (ih h)

theorem mem_mapDelete {k : String} {m : List (String × PendingEntry)}
    {p : String × PendingEntry} (h : p ∈ mapDelete k m) : p ∈ m := by
  induction m with
  | nil => simp [mapDelete] at h
  | cons hd tl ih =>
    obtain ⟨k2, v2⟩ := hd
    by_cases hk : k2 = k
    · simp [mapDelete, hk] at h
      exact List.mem_cons_of_mem _ (ih h)
    · simp [mapDelete, hk] at h
      rcases h with h | h
      · subst h; exact List.mem_cons_self _ _
      · exact List.mem_cons_of_mem _ (ih h)

theorem settle_lookup_of_pending {pid : Nat} {ps : List (Nat × PromiseOutcome)}
    (o : PromiseOutcome) (h : promiseLookup pid ps = some PromiseOutcome.pending) :
    promiseLookup pid (settle pid o ps) = some o := by
  induction ps with
  | nil => simp [promiseLookup] at h
  | cons hd tl ih =>
    obtain ⟨i, st⟩ := hd
    by_cases hi : i = pid
    · subst hi
      simp [promiseLookup] at h
      simp [settle, promiseLookup, h]
    · simp [promiseLookup, hi] at h
      simp [settle, promiseLookup, hi, ih h]

theorem settle_lookup_ne {i pid : Nat} (o : PromiseOutcome)
    (ps : List (Nat × PromiseOutcome)) (h : i ≠ pid) :
    promiseLookup pid (settle i o ps) = promiseLookup pid ps := by
  induction ps with
  | nil => simp [settle]
  | cons hd tl ih =>
    obtain ⟨j, st⟩ := hd
    by_cases hj : j = i
    · subst hj
      simp [settle, promiseLookup, h]
    · simp [settle, promiseLookup, hj, ih]

theorem promiseLookup_cons_ne {i pid : Nat} (st : PromiseOutcome)
    (ps : List (Nat × PromiseOutcome)) (h : i ≠ pid) :
    promiseLookup pid ((i, st) :: ps) = promiseLookup pid ps := by
  simp [promiseLookup, h]

theorem listenersFor_append (ev : String) (l1 l2 : List Listener) :
    listenersFor ev (l1 ++ l2) = listenersFor ev l1 ++ listenersFor ev l2 := by
  induction l1 with
  | nil => simp [listenersFor]
  | cons hd tl ih =>
    by_cases hk : hd.eventName = ev
    · simp [listenersFor, hk, ih]
    · simp [listenersFor, hk, ih]

theorem listenersFor_nil_of_none {ev : String} {l : List Listener}
    (h : ∀ x ∈ l, x.eventName ≠ ev) : listenersFor ev l = [] := by
  induction l with
  | nil => simp [listenersFor]
  | cons hd tl ih =>
    have hhd : hd.eventName ≠ ev := h hd (List.mem_cons_self _ _)
    simp [listenersFor, hhd]
    exact ih fun x hx => h x (List.mem_cons_of_mem _ hx)

theorem removeListenersFor_of_none {ev : String} {l : List Listener}
    (h : ∀ x ∈ l, x.eventName ≠ ev) : removeListenersFor ev l = l := by
  induction l with
  | nil => simp [removeListenersFor]
  | cons hd tl ih =>
    have hhd : hd.eventName ≠ ev := h hd (List.mem_cons_self _ _)
    simp [removeListenersFor, hhd]
    exact ih fun x hx => h x (List.mem_cons_of_mem _ hx)

/-- A promise identifier that is still pending but is referenced by no
entry of the pendingMessages Map, its resolve and reject capabilities
having been lost; the bound on nextPromiseId keeps future enqueues from
reusing the identifier. -/
def orphanedPromise (pid : Nat) (s : ClientState) : Prop :=
  promiseLookup pid s.promises = some PromiseOutcome.pending ∧
  (∀ p ∈ s.pendingMessages, p.2.promiseId ≠ pid) ∧
  pid < s.nextPromiseId

theorem orphaned_enqueueStep {pid : Nat} {s : ClientState}
    (h : orphanedPromise pid s) (r c : String) (n : Nat) :
    orphanedPromise pid (enqueueStep r c n s) := by
  obtain ⟨hpend, hmap, hlt⟩ := h
  refine ⟨?_, ?_, ?_⟩
  · show promiseLookup pid ((s.nextPromiseId, PromiseOutcome.pending) :: s.promises)
        = some PromiseOutcome.pending
    rw [promiseLookup_cons_ne _ _ (Nat.ne_of_gt hlt)]
    exact hpend
  · intro p hp
    simp only [enqueueStep, mapSet] at hp
    rcases List.mem_cons.mp hp with h1 | h1
    · subst h1
      exact Nat.ne_of_gt hlt
    · exact hmap p (mem_mapDelete h1)
  · exact Nat.lt_succ_of_lt hlt

theorem orphaned_listenerBody {pid : Nat} {s : ClientState}
    (h : orphanedPromise pid s) (f : String → String) (pr : Option String)
    (enc : String → String → Except String String) (b rid cr : String) :
    orphanedPromise pid (listenerBody f pr enc b rid cr s) := by
  obtain ⟨hpend, hmap, hlt⟩ := h
  unfold listenerBody
  split
  case _ errMessage e hml =>
    have hne : e.promiseId ≠ pid := hmap (rid, e) (mapLookup_mem hml)
    exact ⟨by rw [settle_lookup_ne _ _ hne]; exact hpend,
      fun p hp => hmap p (mem_mapDelete hp), hlt⟩
  case _ => exact ⟨hpend, hmap, hlt⟩
  case _ e hml =>
    have hne : e.promiseId ≠ pid := hmap (rid, e) (mapLookup_mem hml)
    split
    case _ ct henc =>
      exact ⟨by rw [settle_lookup_ne _ _ hne]; exact hpend,
        fun p hp => hmap p (mem_mapDelete hp), hlt⟩
    case _ errMessage henc =>
      exact ⟨by rw [settle_lookup_ne _ _ hne]; exact hpend,
        fun p hp => hmap p (mem_mapDelete hp), hlt⟩
  case _ => exact ⟨hpend, hmap, hlt⟩

theorem orphaned_listenerFold {pid : Nat} (f : String → String)
    (pr : Option String) (enc : String → String → Except String String)
    (b rid : String) (l : List Listener) :
    ∀ s : ClientState, orphanedPromise pid s →
      orphanedPromise pid
        (l.foldl (fun st x => listenerBody f pr enc b rid x.recipientId st) s) := by
  induction l with
  | nil => intro s h; exact h
  | cons hd tl ih =>
    intro s h
    exact ih _ (orphaned_listenerBody h f pr enc b rid hd.recipientId)

theorem orphaned_bundleResponseStep {pid : Nat} {s : ClientState}
    (h : orphanedPromise pid s) (f : String → String) (pr : Option String)
    (enc : String → String → Except String String) (rid b : String) :
    orphanedPromise pid (bundleResponseStep f pr enc rid b s) := by
  obtain ⟨hpend, hmap, hlt⟩ := h
  unfold bundleResponseStep
  exact orphaned_listenerFold f pr enc b rid _ _ ⟨hpend, hmap, hlt⟩

theorem orphaned_timeoutStep {pid : Nat} {s : ClientState}
    (h : orphanedPromise pid s) (rid : String) :
    orphanedPromise pid (timeoutStep rid s) := by
  obtain ⟨hpend, hmap, hlt⟩ := h
  unfold timeoutStep
  cases hml : mapLookup rid s.pendingMessages with
  | none => exact ⟨hpend, hmap, hlt⟩
  | some e =>
    have hne : e.promiseId ≠ pid := hmap (rid, e) (mapLookup_mem hml)
    refine ⟨?_, ?_, hlt⟩
    · simp only
      rw [settle_lookup_ne _ _ hne]
      exact hpend
    · intro p hp
      exact hmap p (mem_mapDelete hp)

theorem orphaned_applyStep {pid : Nat} {s : ClientState}
    (h : orphanedPromise pid s) (stp : Step) :
    orphanedPromise pid (applyStep stp s) := by
  cases stp with
  | enqueue r c n => exact orphaned_enqueueStep h r c n
  | bundleResponse f pr enc rid b => exact orphaned_bundleResponseStep h f pr enc rid b
  | timerFire rid => exact orphaned_timeoutStep h rid

theorem orphaned_runSteps {pid : Nat} (l : List Step) :
    ∀ s : ClientState, orphanedPromise pid s → orphanedPromise pid (runSteps l s) := by
  induction l with
  | nil => intro s h; exact h
  | cons hd tl ih =>
    intro s h
    exact ih _ (orphaned_applyStep h hd)

/-- C2: two calls entering the no-session branch for recipient alice in
the same millisecond (Date.now equal to 5) both compute the requestId
alice-5; the second Map.set overwrites the entry holding the first
Promise resolve and reject capabilities, so the first caller Future
(promise identifier 0) stays pending after every possible continuation of
the system: zero terminal outcomes, against the exactly-once invariant
the claim states. -/
theorem c2_colliding_enqueues_first_future_never_settles :
    mapLookup "alice-5"
        (enqueueStep "alice" "m2" 5 (enqueueStep "alice" "m1" 5 initState)).pendingMessages
      = some ⟨"alice", "m2", 1⟩ ∧
    promiseLookup 0
        (enqueueStep "alice" "m2" 5 (enqueueStep "alice" "m1" 5 initState)).promises
      = some PromiseOutcome.pending ∧
    ∀ steps : List Step,
      promiseLookup 0
          (runSteps steps
            (enqueueStep "alice" "m2" 5 (enqueueStep "alice" "m1" 5 initState))).promises
        = some PromiseOutcome.pending := by
  refine ⟨by decide, by decide, ?_⟩
  intro steps
  have h : orphanedPromise 0
      (enqueueStep "alice" "m2" 5 (enqueueStep "alice" "m1" 5 initState)) := by
    refine ⟨by decide, ?_, by decide⟩
    intro p hp
    have hm : (enqueueStep "alice" "m2" 5
        (enqueueStep "alice" "m1" 5 initState)).pendingMessages
        = [("alice-5", ⟨"alice", "m2", 1⟩)] := by decide
    rw [hm] at hp
    rcases List.mem_singleton.mp hp with rfl
    decide
  exact (orphaned_runSteps steps _ h).1

/-- C4: the catch block of encryptMessage classifies a Session Engine
failure by testing whether its message contains the substring No session.
An engine error that is not the specific no-session signal but whose
message happens to contain that substring is sent into the bundle-exchange
path instead of propagating unchanged, while a genuine other failure
without the substring does propagate unchanged. -/
theorem c4_substring_classification_misroutes_other_errors :
    classifyEncryptError
        ⟨EngineErrorKind.encryptionError,
          "Invalid ciphertext header: No session ratchet state found"⟩
      = EncryptDispatch.enqueuedPending ∧
    EngineErrorKind.encryptionError ≠ EngineErrorKind.noSession ∧
    classifyEncryptError ⟨EngineErrorKind.encryptionError, "Bad MAC"⟩
      = EncryptDispatch.propagated ⟨EngineErrorKind.encryptionError, "Bad MAC"⟩ := by
  refine ⟨by decide, by decide, by decide⟩

/-- C6: after an enqueue for alice at time 0 and the timeout firing for
requestId alice-0, the pendingMessages Map no longer holds the entry, but
the one-shot listener for the interpolated event name is still
registered: the timeout path never deregisters it, so the listener
outlives its pending entry. -/
theorem c6_timeout_leaves_listener_registered :
    (timeoutStep "alice-0" (enqueueStep "alice" "hi" 0 initState)).listeners
      = [⟨preKeyEventName "alice-0", "alice"⟩] ∧
    mapLookup "alice-0"
        (timeoutStep "alice-0" (enqueueStep "alice" "hi" 0 initState)).pendingMessages
      = none ∧
    promiseLookup 0
        (timeoutStep "alice-0" (enqueueStep "alice" "hi" 0 initState)).promises
      = some (PromiseOutcome.rejected "Timeout requesting pre-key bundle") := by
  refine ⟨by decide, by decide, by decide⟩

theorem none_of_listenersFor_nil {ev : String} {l : List Listener}
    (h : listenersFor ev l = []) : ∀ x ∈ l, x.eventName ≠ ev := by
  induction l with
  | nil => intro x hx; simp at hx
  | cons hd tl ih =>
    intro x hx
    by_cases hhd : hd.eventName = ev
    · rw [listenersFor, if_pos hhd] at h
      cases h
    · rw [listenersFor, if_neg hhd] at h
      rcases List.mem_cons.mp hx with rfl | hx2
      · exact hhd
      · exact ih h x hx2

theorem listenerBody_lookup_none {f : String → String} {pr : Option String}
    {enc : String → String → Except String String} {b rid cr : String}
    {s : ClientState} (h : mapLookup rid s.pendingMessages = none) :
    listenerBody f pr enc b rid cr s
      = { s with processBundleCalls := s.processBundleCalls ++ [(cr, b)] } := by
  unfold listenerBody
  split
  case _ e hml => rw [h] at hml; cases hml
  case _ => rfl
  case _ e hml => rw [h] at hml; cases hml
  case _ => rfl

theorem listenerFold_lookup_none {f : String → String} {pr : Option String}
    {enc : String → String → Except String String} {b rid : String}
    (l : List Listener) :
    ∀ s : ClientState, mapLookup rid s.pendingMessages = none →
      (l.foldl (fun st x => listenerBody f pr enc b rid x.recipientId st) s).promises
          = s.promises ∧
      (l.foldl (fun st x => listenerBody f pr enc b rid x.recipientId st) s).pendingMessages
          = s.pendingMessages := by
  induction l with
  | nil => intro s h; exact ⟨rfl, rfl⟩
  | cons hd tl ih =>
    intro s h
    rw [List.foldl_cons, listenerBody_lookup_none h]
    exact ih _ h

/-- C7, counterexample to the claim as stated: enqueue for alice at time
0, let the timeout fire, then deliver a first bundle response for the
same requestId. No processPreKeyBundle call had happened before the
response, yet the late response makes the still-registered one-shot
listener fire and invoke Session Engine process-bundle with the bundle
payload; the Future stays settled by the timeout rejection. The claim
states a late response invokes neither, so it is false on the code. -/
theorem c7_late_response_invokes_process_bundle :
    (timeoutStep "alice-0" (enqueueStep "alice" "hi" 0 initState)).processBundleCalls
      = [] ∧
    (bundleResponseStep id none (fun _ _ => Except.ok "CT") "alice-0" "B1"
        (timeoutStep "alice-0" (enqueueStep "alice" "hi" 0 initState))).processBundleCalls
      = [("alice", "B1")] ∧
    promiseLookup 0
        (bundleResponseStep id none (fun _ _ => Except.ok "CT") "alice-0" "B1"
          (timeoutStep "alice-0" (enqueueStep "alice" "hi" 0 initState))).promises
      = some (PromiseOutcome.rejected "Timeout requesting pre-key bundle") := by
  refine ⟨by decide, by decide, by decide⟩

/-- C7, amended: for a given correlationId at most one response is acted
upon at the registry, and late or duplicate responses never settle the
Future. Once the one-shot listeners for the event name are gone (they are
consumed when the first response fires), a further response frame is a
complete no-op; and whenever the pending entry is absent (resolved or
timed out), a response leaves every promise and the registry untouched --
though, because the timeout path does not deregister the listener, such a
response may still invoke Session Engine process-bundle. -/
theorem c7_amended_late_responses_never_settle (f : String → String)
    (pr : Option String) (enc : String → String → Except String String)
    (rid b : String) (s : ClientState) :
    (listenersFor (preKeyEventName rid) s.listeners = [] →
      bundleResponseStep f pr enc rid b s = s) ∧
    (mapLookup rid s.pendingMessages = none →
      (bundleResponseStep f pr enc rid b s).promises = s.promises ∧
      (bundleResponseStep f pr enc rid b s).pendingMessages = s.pendingMessages) := by
  constructor
  · intro h
    unfold bundleResponseStep
    rw [h, removeListenersFor_of_none (none_of_listenersFor_nil h)]
    rfl
  · intro h
    unfold bundleResponseStep
    exact listenerFold_lookup_none _ _ h

/-- C7 witness: a concrete state in which a first response was already
acted upon (listener consumed, entry removed); a duplicate response frame
changes nothing at all. -/
theorem c7_amended_late_responses_never_settle_witness :
    bundleResponseStep id none (fun _ _ => Except.ok "CT") "alice-0" "B2"
        (bundleResponseStep id none (fun _ _ => Except.ok "CT") "alice-0" "B1"
          (enqueueStep "alice" "hi" 0 initState))
      = bundleResponseStep id none (fun _ _ => Except.ok "CT") "alice-0" "B1"
          (enqueueStep "alice" "hi" 0 initState) ∧
    (bundleResponseStep id none (fun _ _ => Except.ok "CT") "alice-0" "B2"
        (bundleResponseStep id none (fun _ _ => Except.ok "CT") "alice-0" "B1"
          (enqueueStep "alice" "hi" 0 initState))).promises
      = (bundleResponseStep id none (fun _ _ => Except.ok "CT") "alice-0" "B1"
          (enqueueStep "alice" "hi" 0 initState)).promises :=
  ⟨(c7_amended_late_responses_never_settle id none (fun _ _ => Except.ok "CT")
      "alice-0" "B2"
      (bundleResponseStep id none (fun _ _ => Except.ok "CT") "alice-0" "B1"
        (enqueueStep "alice" "hi" 0 initState))).1 (by decide),
   ((c7_amended_late_responses_never_settle id none (fun _ _ => Except.ok "CT")
      "alice-0" "B2"
      (bundleResponseStep id none (fun _ _ => Except.ok "CT") "alice-0" "B1"
        (enqueueStep "alice" "hi" 0 initState))).2 (by decide)).1⟩

/-- C5, counterexample to the claim as stated: an envelope whose
ciphertext the Session Engine decrypts successfully to a plaintext that
JSON.parse rejects. Decrypt succeeds, yet the handler emits no
message-decrypted acknowledgement and dispatches nothing to subscribers;
it emits the recovery request-pre-key-bundle frame instead, so the
decrypt-success half of the claim is false on the code. -/
theorem c5_successful_decrypt_without_ack :
    (fun (_ _ : String) => Except.ok (ε := String) "not json") "bob" "ct1"
      = Except.ok "not json" ∧
    handleEncryptedMessage (fun _ _ => Except.ok "not json") (fun _ => none)
        ⟨"bob", "ch1", "ct1", "m1"⟩
      = [HandlerOut.emit (Frame.requestPreKeyBundle "bob" none)] ∧
    HandlerOut.emit (Frame.messageDecrypted "m1") ∉
      handleEncryptedMessage (fun _ _ => Except.ok "not json") (fun _ => none)
        ⟨"bob", "ch1", "ct1", "m1"⟩ := by
  refine ⟨rfl, rfl, by decide⟩

/-- C5, amended: for every incoming envelope, if Session Engine decrypt
succeeds and the decrypted plaintext parses as JSON, the handler
dispatches the content once to the local subscribers and emits exactly
one message-decrypted acknowledgement carrying the messageId; if decrypt
fails, it emits exactly one request-pre-key-bundle frame for the
senderId, no acknowledgement, and dispatches nothing (a parse failure
after a successful decrypt takes this same failure path, see C10). -/
theorem c5_amended_incoming_envelope_handling
    (decrypt : String → String → Except String String)
    (parseJson : String → Option String) (env : Envelope) :
    (∀ pt c, decrypt env.senderId env.encryptedMessage = Except.ok pt →
      parseJson pt = some c →
      handleEncryptedMessage decrypt parseJson env
        = [HandlerOut.windowDispatch env.messageId env.senderId env.channelId c,
           HandlerOut.emit (Frame.messageDecrypted env.messageId)]) ∧
    (∀ msg, decrypt env.senderId env.encryptedMessage = Except.error msg →
      handleEncryptedMessage decrypt parseJson env
        = [HandlerOut.emit (Frame.requestPreKeyBundle env.senderId none)]) := by
  constructor
  · intro pt c hd hp
    simp only [handleEncryptedMessage, hd, hp]
  · intro msg hd
    simp only [handleEncryptedMessage, hd]

/-- C5 witness: both branches of the amended statement at concrete
inputs. -/
theorem c5_amended_incoming_envelope_handling_witness :
    handleEncryptedMessage (fun _ _ => Except.ok "[1]") (fun s => some s)
        ⟨"bob", "ch1", "ct1", "m1"⟩
      = [HandlerOut.windowDispatch "m1" "bob" "ch1" "[1]",
         HandlerOut.emit (Frame.messageDecrypted "m1")] ∧
    handleEncryptedMessage (fun _ _ => Except.error "Bad MAC") (fun s => some s)
        ⟨"bob", "ch1", "ct1", "m1"⟩
      = [HandlerOut.emit (Frame.requestPreKeyBundle "bob" none)] :=
  ⟨(c5_amended_incoming_envelope_handling (fun _ _ => Except.ok "[1]")
      (fun s => some s) ⟨"bob", "ch1", "ct1", "m1"⟩).1 "[1]" "[1]" rfl rfl,
   (c5_amended_incoming_envelope_handling (fun _ _ => Except.error "Bad MAC")
      (fun s => some s) ⟨"bob", "ch1", "ct1", "m1"⟩).2 "Bad MAC" rfl⟩

/-- C10: when the Session Engine decrypt succeeds but the decrypted
plaintext is not valid JSON (JSON.parse throws while the CustomEvent
detail is built), control lands in the same catch block as a decrypt
failure: one request-pre-key-bundle frame for the sender, no
acknowledgement, nothing dispatched -- observably identical to a decrypt
failure on the same envelope. -/
theorem c10_parse_failure_takes_failure_path
    (decrypt : String → String → Except String String)
    (parseJson : String → Option String) (env : Envelope) (pt : String)
    (hd : decrypt env.senderId env.encryptedMessage = Except.ok pt)
    (hp : parseJson pt = none) :
    handleEncryptedMessage decrypt parseJson env
      = [HandlerOut.emit (Frame.requestPreKeyBundle env.senderId none)] ∧
    handleEncryptedMessage decrypt parseJson env
      = handleEncryptedMessage (fun _ _ => Except.error "DecryptionError")
          parseJson env := by
  simp only [handleEncryptedMessage, hd, hp]
  constructor <;> trivial

/-- C10 witness: a concrete plaintext that fails to parse after a
successful decrypt. -/
theorem c10_parse_failure_takes_failure_path_witness :
    handleEncryptedMessage (fun _ _ => Except.ok "hello") (fun _ => none)
        ⟨"bob", "ch1", "ct1", "m1"⟩
      = [HandlerOut.emit (Frame.requestPreKeyBundle "bob" none)] ∧
    handleEncryptedMessage (fun _ _ => Except.ok "hello") (fun _ => none)
        ⟨"bob", "ch1", "ct1", "m1"⟩
      = handleEncryptedMessage (fun _ _ => Except.error "DecryptionError")
          (fun _ => none) ⟨"bob", "ch1", "ct1", "m1"⟩ :=
  c10_parse_failure_takes_failure_path (fun _ _ => Except.ok "hello")
    (fun _ => none) ⟨"bob", "ch1", "ct1", "m1"⟩ "hello" rfl rfl

theorem settle_cons_self (pid : Nat) (o : PromiseOutcome)
    (ps : List (Nat × PromiseOutcome)) :
    settle pid o ((pid, PromiseOutcome.pending) :: ps) = (pid, o) :: ps := by
  simp [settle]

theorem listenerBody_success (f : String → String)
    (enc : String → String → Except String String) (b rid cr : String)
    {s : ClientState} {e : PendingEntry} {ct : String}
    (hml : mapLookup rid s.pendingMessages = some e)
    (henc : enc cr (f e.content) = Except.ok ct) :
    listenerBody f none enc b rid cr s
      = { s with
            processBundleCalls := s.processBundleCalls ++ [(cr, b)]
            promises := settle e.promiseId (PromiseOutcome.resolved ct) s.promises
            pendingMessages := mapDelete rid s.pendingMessages } := by
  simp only [listenerBody, hml, henc]

/-- C1: a call entering the no-session branch emits exactly one
request-pre-key-bundle frame for the recipient, tagged with its
requestId; when the matching bundle response arrives (while the entry is
pending and this is the only listener for the correlation event, as holds
whenever the requestId is fresh), and processPreKeyBundle succeeds and the
re-encryption of the stringified original content yields a ciphertext,
then the caller Promise is resolved with exactly that ciphertext, the
pending entry is gone from the registry, and no further frame was
emitted. -/
theorem c1_no_session_recovery (s0 : ClientState) (recipientId content : String)
    (now : Nat) (stringify : String → String)
    (encrypt : String → String → Except String String) (bundle ct : String)
    (hlis : ∀ l ∈ s0.listeners,
      l.eventName ≠ preKeyEventName (requestIdFor recipientId now))
    (henc : encrypt recipientId (stringify content) = Except.ok ct) :
    (enqueueStep recipientId content now s0).emitted
      = s0.emitted
        ++ [Frame.requestPreKeyBundle recipientId (some (requestIdFor recipientId now))] ∧
    (bundleResponseStep stringify none encrypt (requestIdFor recipientId now) bundle
        (enqueueStep recipientId content now s0)).emitted
      = (enqueueStep recipientId content now s0).emitted ∧
    promiseLookup s0.nextPromiseId
        (bundleResponseStep stringify none encrypt (requestIdFor recipientId now) bundle
          (enqueueStep recipientId content now s0)).promises
      = some (PromiseOutcome.resolved ct) ∧
    mapLookup (requestIdFor recipientId now)
        (bundleResponseStep stringify none encrypt (requestIdFor recipientId now) bundle
          (enqueueStep recipientId content now s0)).pendingMessages
      = none := by
  have hm : listenersFor (preKeyEventName (requestIdFor recipientId now))
      (enqueueStep recipientId content now s0).listeners
      = [⟨preKeyEventName (requestIdFor recipientId now), recipientId⟩] := by
    have hl : (enqueueStep recipientId content now s0).listeners
        = s0.listeners
          ++ [⟨preKeyEventName (requestIdFor recipientId now), recipientId⟩] := rfl
    rw [hl, listenersFor_append, listenersFor_nil_of_none hlis]
    simp [listenersFor]
  have hstep : bundleResponseStep stringify none encrypt
      (requestIdFor recipientId now) bundle (enqueueStep recipientId content now s0)
      = listenerBody stringify none encrypt bundle (requestIdFor recipientId now)
          recipientId
          { enqueueStep recipientId content now s0 with
              listeners :=
                removeListenersFor (preKeyEventName (requestIdFor recipientId now))
                  (enqueueStep recipientId content now s0).listeners } := by
    unfold bundleResponseStep
    rw [hm]
    rfl
  have hml : mapLookup (requestIdFor recipientId now)
      ({ enqueueStep recipientId content now s0 with
          listeners :=
            removeListenersFor (preKeyEventName (requestIdFor recipientId now))
              (enqueueStep recipientId content now s0).listeners }).pendingMessages
      = some ⟨recipientId, content, s0.nextPromiseId⟩ :=
    mapLookup_mapSet_self _ _ _
  rw [hstep, listenerBody_success stringify encrypt bundle
    (requestIdFor recipientId now) recipientId hml henc]
  refine ⟨rfl, rfl, ?_, mapLookup_mapDelete_self _ _⟩
  have hp : ({ enqueueStep recipientId content now s0 with
      listeners :=
        removeListenersFor (preKeyEventName (requestIdFor recipientId now))
          (enqueueStep recipientId content now s0).listeners }).promises
      = (s0.nextPromiseId, PromiseOutcome.pending) :: s0.promises := rfl
  show promiseLookup s0.nextPromiseId
      (settle (PendingEntry.mk recipientId content s0.nextPromiseId).promiseId
        (PromiseOutcome.resolved ct)
        ((s0.nextPromiseId, PromiseOutcome.pending) :: s0.promises))
    = some (PromiseOutcome.resolved ct)
  rw [settle_cons_self]
  simp [promiseLookup]

/-- C1 witness: the full recovery at concrete inputs from the empty
state. -/
theorem c1_no_session_recovery_witness :
    (enqueueStep "alice" "hi" 0 initState).emitted
      = initState.emitted
        ++ [Frame.requestPreKeyBundle "alice" (some (requestIdFor "alice" 0))] ∧
    (bundleResponseStep id none (fun _ _ => Except.ok "CT")
        (requestIdFor "alice" 0) "B1" (enqueueStep "alice" "hi" 0 initState)).emitted
      = (enqueueStep "alice" "hi" 0 initState).emitted ∧
    promiseLookup initState.nextPromiseId
        (bundleResponseStep id none (fun _ _ => Except.ok "CT")
          (requestIdFor "alice" 0) "B1"
          (enqueueStep "alice" "hi" 0 initState)).promises
      = some (PromiseOutcome.resolved "CT") ∧
    mapLookup (requestIdFor "alice" 0)
        (bundleResponseStep id none (fun _ _ => Except.ok "CT")
          (requestIdFor "alice" 0) "B1"
          (enqueueStep "alice" "hi" 0 initState)).pendingMessages
      = none :=
  c1_no_session_recovery initState "alice" "hi" 0 id (fun _ _ => Except.ok "CT")
    "B1" "CT" (by intro l hl; cases hl) rfl

/-- C3: when the timeout callback fires while the registry still holds
the entry for the requestId (no bundle response arrived in the window),
the caller Promise is rejected with the bundle timeout error and the
registry afterwards holds no entry for that requestId; the window armed
by the enqueue is the default of 10000 milliseconds. -/
theorem c3_timeout_rejects_and_clears (s : ClientState) (requestId : String)
    (e : PendingEntry)
    (hentry : mapLookup requestId s.pendingMessages = some e)
    (hpending : promiseLookup e.promiseId s.promises = some PromiseOutcome.pending) :
    promiseLookup e.promiseId (timeoutStep requestId s).promises
      = some (PromiseOutcome.rejected "Timeout requesting pre-key bundle") ∧
    mapLookup requestId (timeoutStep requestId s).pendingMessages = none ∧
    (∀ r c n s0, (enqueueStep r c n s0).timers
      = (requestIdFor r n, n + bundleTimeoutMs) :: s0.timers) ∧
    bundleTimeoutMs = 10000 := by
  unfold timeoutStep
  rw [hentry]
  exact ⟨settle_lookup_of_pending _ hpending, mapLookup_mapDelete_self _ _,
    fun r c n s0 => rfl, rfl⟩

/-- C3 witness: the timeout firing on a concrete un-answered enqueue. -/
theorem c3_timeout_rejects_and_clears_witness :
    promiseLookup (PendingEntry.mk "alice" "hi" 0).promiseId
        (timeoutStep "alice-0" (enqueueStep "alice" "hi" 0 initState)).promises
      = some (PromiseOutcome.rejected "Timeout requesting pre-key bundle") ∧
    mapLookup "alice-0"
        (timeoutStep "alice-0" (enqueueStep "alice" "hi" 0 initState)).pendingMessages
      = none ∧
    (∀ r c n s0, (enqueueStep r c n s0).timers
      = (requestIdFor r n, n + bundleTimeoutMs) :: s0.timers) ∧
    bundleTimeoutMs = 10000 :=
  c3_timeout_rejects_and_clears (enqueueStep "alice" "hi" 0 initState) "alice-0"
    ⟨"alice", "hi", 0⟩ (by decide) (by decide)

/-- C8: decrypting the package produced by encryptFile with the same raw
key returns the original payload whenever the authenticated cipher honors
its round-trip contract at that key, IV and payload; and when the cipher
rejects a one-byte-flipped ciphertext (the authentication guarantee of
GCM), decryptFile on the tampered package fails with FileDecryptError
instead of returning data. -/
theorem c8_file_round_trip_and_tamper_detection (aead : AEAD) (file : FileData)
    (channelId : String) (entropy : List Nat) (tampered : List Nat)
    (hround : aead.decrypt fileCipherAlgorithm (entropy.take 32)
        ((entropy.drop 32).take 12)
        (aead.encrypt fileCipherAlgorithm (entropy.take 32)
          ((entropy.drop 32).take 12) file.bytes)
      = some file.bytes)
    (hflip : oneByteFlipOf (encryptFile aead file channelId entropy).encryptedFile
        tampered = true)
    (hauth : aead.decrypt fileCipherAlgorithm (entropy.take 32)
        ((entropy.drop 32).take 12) tampered = none) :
    decryptFile aead (encryptFile aead file channelId entropy)
        (encryptFile aead file channelId entropy).key
      = Except.ok file.bytes ∧
    decryptFile aead
        { encryptFile aead file channelId entropy with encryptedFile := tampered }
        (encryptFile aead file channelId entropy).key
      = Except.error "FileDecryptError" := by
  constructor
  · simp only [decryptFile, encryptFile, hround]
  · simp only [decryptFile, encryptFile, hauth]

/-- C8 witness: a concrete payload through the witness cipher, and a
concrete one-byte flip of its ciphertext that decryptFile rejects. -/
theorem c8_file_round_trip_and_tamper_detection_witness :
    oneByteFlipOf
        (encryptFile modelAead ⟨[1, 2, 3], "a.txt", "text/plain"⟩ "ch"
          (List.range 44)).encryptedFile [1, 2, 9, 137] = true ∧
    decryptFile modelAead
        (encryptFile modelAead ⟨[1, 2, 3], "a.txt", "text/plain"⟩ "ch"
          (List.range 44))
        (encryptFile modelAead ⟨[1, 2, 3], "a.txt", "text/plain"⟩ "ch"
          (List.range 44)).key
      = Except.ok [1, 2, 3] ∧
    decryptFile modelAead
        { encryptFile modelAead ⟨[1, 2, 3], "a.txt", "text/plain"⟩ "ch"
            (List.range 44) with encryptedFile := [1, 2, 9, 137] }
        (encryptFile modelAead ⟨[1, 2, 3], "a.txt", "text/plain"⟩ "ch"
          (List.range 44)).key
      = Except.error "FileDecryptError" := by
  refine ⟨by decide, ?_⟩
  exact c8_file_round_trip_and_tamper_detection modelAead
    ⟨[1, 2, 3], "a.txt", "text/plain"⟩ "ch" (List.range 44) [1, 2, 9, 137]
    (by decide) (by decide) (by decide)

/-- C9: encryptFile draws a fresh 32-byte (256-bit) key and a fresh
12-byte (96-bit) IV from the platform randomness, encrypts the file bytes
with the AES-GCM authenticated cipher under exactly that key and IV, and
returns the package carrying the ciphertext, the raw exported key, the
IV, and the file name, type, size and channelId. -/
theorem c9_fresh_key_iv_and_package_fields (aead : AEAD) (file : FileData)
    (channelId : String) (entropy : List Nat) (hlen : 44 ≤ entropy.length) :
    (encryptFile aead file channelId entropy).key = entropy.take 32 ∧
    (encryptFile aead file channelId entropy).key.length = 32 ∧
    (encryptFile aead file channelId entropy).iv = (entropy.drop 32).take 12 ∧
    (encryptFile aead file channelId entropy).iv.length = 12 ∧
    (encryptFile aead file channelId entropy).encryptedFile
      = aead.encrypt fileCipherAlgorithm (encryptFile aead file channelId entropy).key
          (encryptFile aead file channelId entropy).iv file.bytes ∧
    fileCipherAlgorithm = "AES-GCM" ∧
    (encryptFile aead file channelId entropy).fileName = file.name ∧
    (encryptFile aead file channelId entropy).fileType = file.type ∧
    (encryptFile aead file channelId entropy).fileSize = file.bytes.length ∧
    (encryptFile aead file channelId entropy).channelId = channelId := by
  refine ⟨rfl, ?_, rfl, ?_, rfl, rfl, rfl, rfl, rfl, rfl⟩
  · show (entropy.take 32).length = 32
    rw [List.length_take]
    omega
  · show ((entropy.drop 32).take 12).length = 12
    rw [List.length_take, List.length_drop]
    omega

/-- C9 witness: the package fields at a concrete file and a concrete
44-byte entropy draw. -/
theorem c9_fresh_key_iv_and_package_fields_witness :
    (encryptFile modelAead ⟨[1, 2, 3], "a.txt", "text/plain"⟩ "ch"
        (List.range 44)).key = (List.range 44).take 32 ∧
    (encryptFile modelAead ⟨[1, 2, 3], "a.txt", "text/plain"⟩ "ch"
        (List.range 44)).key.length = 32 ∧
    (encryptFile modelAead ⟨[1, 2, 3], "a.txt", "text/plain"⟩ "ch"
        (List.range 44)).iv = ((List.range 44).drop 32).take 12 ∧
    (encryptFile modelAead ⟨[1, 2, 3], "a.txt", "text/plain"⟩ "ch"
        (List.range 44)).iv.length = 12 ∧
    (encryptFile modelAead ⟨[1, 2, 3], "a.txt", "text/plain"⟩ "ch"
        (List.range 44)).encryptedFile
      = modelAead.encrypt fileCipherAlgorithm
          (encryptFile modelAead ⟨[1, 2, 3], "a.txt", "text/plain"⟩ "ch"
            (List.range 44)).key
          (encryptFile modelAead ⟨[1, 2, 3], "a.txt", "text/plain"⟩ "ch"
            (List.range 44)).iv [1, 2, 3] ∧
    fileCipherAlgorithm = "AES-GCM" ∧
    (encryptFile modelAead ⟨[1, 2, 3], "a.txt", "text/plain"⟩ "ch"
        (List.range 44)).fileName = "a.txt" ∧
    (encryptFile modelAead ⟨[1, 2, 3], "a.txt", "text/plain"⟩ "ch"
        (List.range 44)).fileType = "text/plain" ∧
    (encryptFile modelAead ⟨[1, 2, 3], "a.txt", "text/plain"⟩ "ch"
        (List.range 44)).fileSize = [1, 2, 3].length ∧
    (encryptFile modelAead ⟨[1, 2, 3], "a.txt", "text/plain"⟩ "ch"
        (List.range 44)).channelId = "ch" :=
  c9_fresh_key_iv_and_package_fields modelAead ⟨[1, 2, 3], "a.txt", "text/plain"⟩
    "ch" (List.range 44) (by decide)

end ChatEncryption
